import Mathlib

/-!
# A shallow embedding of the `step ca certificate` / `step ca revoke` flows

This file embeds, in Lean, the data model and the control flow of the
certificate issue and revoke commands of the CLI (files
`command/ca/certificate.go`, `command/ca/revoke.go` and the offline CA
wrapper).  Pure helpers (`splitSANs`, `isStepCertificatesToken`,
`ReasonStringToCode`) are translated directly; the two command actions and
the flow methods (`getClient`, `CreateSignRequest`, `Sign`, `Revoke`) are
translated as pure functions over an explicit environment that carries the
outcome of the external collaborators (token parsing, key generation, file
writes, network calls).  Side effects that the flows perform are recorded
in an explicit effect trace.
-/

namespace StepCA

/-- Unverified claims recovered from a bearer token by
`jose.ParseSigned` + `UnsafeClaimsWithoutVerification` (struct
`tokenClaims` in certificate.go: embedded `jose.Claims` contributes
`sub` and `aud`; the struct itself adds `sha`, `sans`, `email`;
`revokeTokenClaims` in revoke.go uses the `sub`/`aud`/`sha` subset). -/
structure TokenClaims where
  sub : String
  aud : List String
  sha : String
  sans : List String
  email : String
deriving DecidableEq

/-- The error outcomes the embedded flows can produce.  `failure tag` stands
for an error produced by an external collaborator (file system, network,
crypto), carrying only a tag naming the failing step. -/
inductive Err where
  | numberOfArguments
  | incompatibleFlags (a b : String)
  | invalidFlagValue (flagName val : String)
  | mutuallyExclusiveFlags (a b : String)
  | requiredFlag (flagName : String)
  | requiredWithFlag (a b : String)
  | tokenParse
  | tokenSubjectMismatch (tokenSub requested : String)
  | commonNameMismatch (commonName subject : String)
  | noEmailClaim
  | emailMismatch (email subject : String)
  | unrecognizedReason (reason : String)
  | failure (tag : String)
deriving DecidableEq

/-- Root-of-trust configuration of a constructed Remote client
(`ca.WithRootSHA256`, `ca.WithRootFile`, or the mutual-TLS transport). -/
inductive RootTrust where
  | fingerprint (sha : String)
  | rootFile (path : String)
  | mutualTLS (crt key root : String)
deriving DecidableEq

/-- A constructed CA client: the offline (embedded) variant or a remote
client with a CA URL and a root of trust. -/
inductive Client where
  | offline
  | remote (caURL : String) (trust : RootTrust)
deriving DecidableEq

/-- Observable side effects of a flow, in the order they happen. -/
inductive Effect where
  | generatedToken
  | builtClient
  | calledSign
  | wroteCrt
  | wroteKey
  | calledRevoke
  | authorityRevoke (serial provisionerID : String) (code : Nat)
deriving DecidableEq

/-- The fields of the certificate request template built by
`CreateSignRequest` that the flows observe. -/
structure CSR where
  commonName : String
  dnsNames : List String
  ipAddresses : List String
  emailAddresses : List String
deriving DecidableEq

/-- `pki.GetRootCAPath()`: the well-known default root certificate path. -/
def rootCAPath : String := ".step/certs/root_ca.crt"

/-! ## SAN merging and splitting (`splitSANs` in certificate.go) -/

/-- The deduplication loop of `splitSANs`: walk the SANs in order, keep an
element only if it has not been seen before (`m := make(map[string]bool)`;
first occurrence wins).  `seen` is the set of already-kept elements. -/
def dedupFirst (seen : List String) : List String → List String
  | [] => []
  | s :: rest => if s ∈ seen then dedupFirst seen rest else s :: dedupFirst (s :: seen) rest

/-- Modelled from the spec: `x509util.SplitSANs` is not part of the shown
source.  Per the spec, split "the merged set into DNS-name and IP-address
buckets by syntactic form (a literal IP address parses as an IP SAN,
everything else as a DNS SAN)".  The IP test is abstracted as a predicate
`isIP`. -/
def SplitSANs (isIP : String → Bool) : List String → List String × List String
  | [] => ([], [])
  | s :: rest =>
    let p := SplitSANs isIP rest
    if isIP s then (p.1, s :: p.2) else (s :: p.1, p.2)

/-- Split a character list at every dot. -/
def splitOnDot : List Char → List (List Char)
  | [] => [[]]
  | c :: rest =>
    let r := splitOnDot rest
    if c = '.' then [] :: r else (c :: r.headD []) :: r.tail

/-- Decimal value of a digit string. -/
def digitVal (p : List Char) : Nat :=
  p.foldl (fun acc c => acc * 10 + (c.toNat - 48)) 0

/-- Modelled from the spec: a dotted-quad IPv4 literal (each of four
dot-separated parts is 1-3 decimal digits with value at most 255), the
shape accepted by `net.ParseIP` for IPv4. -/
def isIPv4 (s : String) : Bool :=
  let parts := splitOnDot s.data
  parts.length == 4 && parts.all fun p =>
    decide (0 < p.length) && decide (p.length ≤ 3) &&
      (p.all fun c => 48 ≤ c.toNat && c.toNat ≤ 57) && digitVal p ≤ 255

/-- Modelled from the spec: "a literal IP address parses as an IP SAN".
An IPv6 textual literal always contains a colon; an IPv4 literal is a
dotted quad. -/
def isIPLiteral (s : String) : Bool := isIPv4 s || s.data.contains ':'

/-- The merge half of `splitSANs`: unify the SAN collections passed as
arguments into one first-occurrence-deduplicated list (`unique`). -/
def mergeSANs (args : List (List String)) : List String :=
  dedupFirst [] args.flatten

/-- `splitSANs` (certificate.go): unify the SAN collections passed as
arguments and return a list of DNS names and a list of IP addresses. -/
def splitSANs (isIP : String → Bool) (args : List (List String)) :
    List String × List String :=
  SplitSANs isIP (mergeSANs args)

theorem mem_dedupFirst (l : List String) :
    ∀ seen x, x ∈ dedupFirst seen l ↔ (x ∈ l ∧ x ∉ seen) := by
  induction l with
  | nil => intro seen x; simp [dedupFirst]
  | cons s rest ih =>
    intro seen x
    by_cases hs : s ∈ seen
    · rw [dedupFirst, if_pos hs, ih]
      constructor
      · rintro ⟨h1, h2⟩; exact ⟨List.mem_cons_of_mem _ h1, h2⟩
      · rintro ⟨h1, h2⟩
        rcases List.mem_cons.mp h1 with h | h
        · exact absurd (h ▸ hs) h2
        · exact ⟨h, h2⟩
    · rw [dedupFirst, if_neg hs]
      constructor
      · intro h
        rcases List.mem_cons.mp h with h | h
        · exact ⟨h ▸ List.mem_cons_self _ _, h ▸ hs⟩
        · rw [ih] at h
          refine ⟨List.mem_cons_of_mem _ h.1, fun hx => h.2 (List.mem_cons_of_mem _ hx)⟩
      · rintro ⟨h1, h2⟩
        rcases List.mem_cons.mp h1 with h | h
        · exact h ▸ List.mem_cons_self _ _
        · by_cases hxs : x = s
          · exact hxs ▸ List.mem_cons_self _ _
          · exact List.mem_cons_of_mem _ ((ih _ x).mpr
              ⟨h, fun hx => (List.mem_cons.mp hx).elim hxs h2⟩)

theorem nodup_dedupFirst (l : List String) : ∀ seen, (dedupFirst seen l).Nodup := by
  induction l with
  | nil => intro seen; simp [dedupFirst]
  | cons s rest ih =>
    intro seen
    by_cases hs : s ∈ seen
    · rw [dedupFirst, if_pos hs]; exact ih seen
    · rw [dedupFirst, if_neg hs]
      refine List.nodup_cons.mpr ⟨fun hmem => ?_, ih _⟩
      exact ((mem_dedupFirst rest _ s).mp hmem).2 (List.mem_cons_self _ _)

theorem sublist_dedupFirst (l : List String) : ∀ seen, (dedupFirst seen l).Sublist l := by
  induction l with
  | nil => intro seen; simp [dedupFirst]
  | cons s rest ih =>
    intro seen
    by_cases hs : s ∈ seen
    · rw [dedupFirst, if_pos hs]; exact (ih seen).cons s
    · rw [dedupFirst, if_neg hs]; exact (ih _).cons₂ s

theorem dedupFirst_congr (l : List String) :
    ∀ s1 s2, (∀ x, x ∈ s1 ↔ x ∈ s2) → dedupFirst s1 l = dedupFirst s2 l := by
  induction l with
  | nil => intro s1 s2 _; rfl
  | cons s rest ih =>
    intro s1 s2 h
    by_cases hs : s ∈ s1
    · rw [dedupFirst, if_pos hs, dedupFirst, if_pos ((h s).mp hs)]
      exact ih s1 s2 h
    · rw [dedupFirst, if_neg hs, dedupFirst, if_neg (fun hx => hs ((h s).mpr hx))]
      refine congrArg (s :: ·) (ih _ _ fun x => ?_)
      simp only [List.mem_cons]
      exact or_congr Iff.rfl (h x)

theorem dedupFirst_append (A : List String) :
    ∀ B seen, dedupFirst seen (A ++ B) = dedupFirst seen A ++ dedupFirst (A ++ seen) B := by
  induction A with
  | nil => intro B seen; simp [dedupFirst]
  | cons a A ih =>
    intro B seen
    by_cases ha : a ∈ seen
    · rw [List.cons_append, dedupFirst, if_pos ha, dedupFirst, if_pos ha, ih]
      refine congrArg _ (dedupFirst_congr B _ _ fun x => ?_)
      simp only [List.cons_append, List.mem_append, List.mem_cons]
      constructor
      · rintro (h | h) <;> simp_all
      · rintro ((h | h) | h) <;> simp_all
    · rw [List.cons_append, dedupFirst, if_neg ha, dedupFirst, if_neg ha, ih]
      rw [List.cons_append]
      refine congrArg (a :: ·) (congrArg _ (dedupFirst_congr B _ _ fun x => ?_))
      simp only [List.cons_append, List.mem_append, List.mem_cons]
      tauto

theorem dedupFirst_eq_nil (l : List String) :
    ∀ seen, (∀ x ∈ l, x ∈ seen) → dedupFirst seen l = [] := by
  induction l with
  | nil => intro seen _; rfl
  | cons s rest ih =>
    intro seen h
    rw [dedupFirst, if_pos (h s (List.mem_cons_self _ _))]
    exact ih seen fun x hx => h x (List.mem_cons_of_mem _ hx)

theorem dedupFirst_of_nodup (l : List String) :
    ∀ seen, l.Nodup → (∀ x ∈ l, x ∉ seen) → dedupFirst seen l = l := by
  induction l with
  | nil => intro seen _ _; rfl
  | cons s rest ih =>
    intro seen hnd hdisj
    rw [dedupFirst, if_neg (hdisj s (List.mem_cons_self _ _))]
    refine congrArg (s :: ·) (ih _ (List.nodup_cons.mp hnd).2 fun x hx => ?_)
    intro hmem
    rcases List.mem_cons.mp hmem with h | h
    · exact (List.nodup_cons.mp hnd).1 (h ▸ hx)
    · exact hdisj x (List.mem_cons_of_mem _ hx) h

theorem dedupFirst_cons_seen (l : List String) :
    ∀ a seen, dedupFirst (a :: seen) l = dedupFirst seen (l.filter (fun y => y != a)) := by
  induction l with
  | nil => intro a seen; rfl
  | cons s rest ih =>
    intro a seen
    by_cases hsa : s = a
    · subst hsa
      rw [dedupFirst, if_pos (List.mem_cons_self _ _)]
      simp only [List.filter_cons, bne_self_eq_false, Bool.false_eq_true, if_neg]
      exact ih s seen
    · have hkeep : (s != a) = true := bne_iff_ne.mpr hsa
      rw [dedupFirst]
      by_cases hs : s ∈ seen
      · rw [if_pos (List.mem_cons_of_mem _ hs)]
        simp only [List.filter_cons, hkeep, if_pos]
        rw [dedupFirst, if_pos hs]
        exact ih a seen
      · rw [if_neg (fun hx => (List.mem_cons.mp hx).elim hsa hs)]
        simp only [List.filter_cons, hkeep, if_pos]
        rw [dedupFirst, if_neg hs]
        refine congrArg (s :: ·) ?_
        rw [dedupFirst_congr rest (s :: a :: seen) (a :: s :: seen)
          (by intro x; simp only [List.mem_cons]; tauto)]
        exact ih a (s :: seen)

theorem splitSANs_filter (isIP : String → Bool) (l : List String) :
    SplitSANs isIP l = (l.filter (fun s => !(isIP s)), l.filter isIP) := by
  induction l with
  | nil => rfl
  | cons s rest ih =>
    rw [SplitSANs, ih]
    by_cases h : isIP s
    · simp [h, List.filter_cons]
    · simp [h, List.filter_cons]

theorem length_filter_add_length_filter_not (p : String → Bool) (l : List String) :
    (l.filter (fun s => !(p s))).length + (l.filter p).length = l.length := by
  induction l with
  | nil => rfl
  | cons s rest ih =>
    rcases Bool.eq_false_or_eq_true (p s) with h | h <;>
      simp [List.filter_cons, h] <;> omega

/-- Claim C3: for all SAN lists A (caller-supplied) and B (token-declared),
the merge performed by `splitSANs` is idempotent, keeps only the first
occurrence of each element in order (later duplicates dropped, A's
elements before B's new elements), contains no duplicates, and the
subsequent split places every merged element into exactly one of the
DNS-name bucket or the IP-address bucket with no element lost. -/
theorem claim3_merge_split_properties (A B : List String) (isIP : String → Bool) :
    mergeSANs [mergeSANs [A, B], mergeSANs [A, B]] = mergeSANs [A, B]
    ∧ (mergeSANs [A, B]).Nodup
    ∧ (mergeSANs [A, B]).Sublist (A ++ B)
    ∧ (∀ x, x ∈ mergeSANs [A, B] ↔ (x ∈ A ∨ x ∈ B))
    ∧ mergeSANs [A, B] = dedupFirst [] A ++ dedupFirst A B
    ∧ (dedupFirst A B).filter (fun x => decide (x ∈ A)) = []
    ∧ (∀ x l, mergeSANs [x :: l] = x :: mergeSANs [l.filter (fun y => y != x)])
    ∧ splitSANs isIP [A, B]
        = ((mergeSANs [A, B]).filter (fun s => !(isIP s)), (mergeSANs [A, B]).filter isIP)
    ∧ ((mergeSANs [A, B]).filter (fun s => !(isIP s))).length
        + ((mergeSANs [A, B]).filter isIP).length = (mergeSANs [A, B]).length
    ∧ (∀ x, x ∈ (mergeSANs [A, B]).filter (fun s => !(isIP s))
        ↔ (x ∈ mergeSANs [A, B] ∧ isIP x = false))
    ∧ (∀ x, x ∈ (mergeSANs [A, B]).filter isIP
        ↔ (x ∈ mergeSANs [A, B] ∧ isIP x = true)) := by
  have hjoin : ([A, B] : List (List String)).flatten = A ++ B := by simp
  have hM : mergeSANs [A, B] = dedupFirst [] (A ++ B) := by
    rw [mergeSANs, hjoin]
  have hnodup : (mergeSANs [A, B]).Nodup := hM ▸ nodup_dedupFirst (A ++ B) []
  refine ⟨?_, hnodup, ?_, ?_, ?_, ?_, ?_, ?_, ?_, ?_, ?_⟩
  · -- idempotence
    rw [show mergeSANs [mergeSANs [A, B], mergeSANs [A, B]]
        = dedupFirst [] (mergeSANs [A, B] ++ mergeSANs [A, B]) by simp [mergeSANs]]
    rw [dedupFirst_append]
    rw [dedupFirst_of_nodup _ _ hnodup (by simp)]
    rw [dedupFirst_eq_nil _ _ (by intro x hx; simpa using hx)]
    simp
  · exact hM ▸ sublist_dedupFirst (A ++ B) []
  · intro x
    rw [hM, mem_dedupFirst]
    simp
  · rw [hM, dedupFirst_append]
    refine congrArg _ (dedupFirst_congr B _ _ fun x => by simp)
  · rw [List.filter_eq_nil_iff]
    intro x hx
    have := (mem_dedupFirst B A x).mp hx
    simpa using this.2
  · intro x l
    rw [mergeSANs, mergeSANs]
    simp only [List.flatten, List.append_nil]
    rw [dedupFirst, if_neg (List.not_mem_nil x)]
    exact congrArg (x :: ·) (dedupFirst_cons_seen l x [])
  · rw [splitSANs, splitSANs_filter]
  · exact length_filter_add_length_filter_not isIP (mergeSANs [A, B])
  · intro x; simp
  · intro x; simp

/-! ## String case folding and prefix testing

`strings.ToLower` and `strings.HasPrefix` from the Go standard library,
mapped characterwise (the flows only ever fold ASCII subjects, serials and
URL schemes). -/

/-- ASCII lower-casing of one character. -/
def charToLower (c : Char) : Char :=
  if 65 ≤ c.toNat ∧ c.toNat ≤ 90 then Char.ofNat (c.toNat + 32) else c

/-- `strings.ToLower`: characterwise lower-casing. -/
def toLowerStr (s : String) : String := ⟨s.data.map charToLower⟩

/-- Character-list prefix test. -/
def leadsWith : List Char → List Char → Bool
  | [], _ => true
  | _ :: _, [] => false
  | p :: ps, c :: cs => p == c && leadsWith ps cs

/-- `strings.HasPrefix s pre`. -/
def strStartsWith (s pre : String) : Bool := leadsWith pre.data s.data

instance {ε α : Type} [DecidableEq ε] [DecidableEq α] : DecidableEq (Except ε α) := fun a b =>
  match a, b with
  | .ok x, .ok y =>
    if h : x = y then isTrue (by rw [h]) else isFalse (by intro he; cases he; exact h rfl)
  | .error x, .error y =>
    if h : x = y then isTrue (by rw [h]) else isFalse (by intro he; cases he; exact h rfl)
  | .ok _, .error _ => isFalse (by intro h; cases h)
  | .error _, .ok _ => isFalse (by intro h; cases h)

/-! ## Token classification and client construction -/

/-- `isStepCertificatesToken` (certificate.go): parse the token without
verification and probe for authority-specific claims (`sha`, `sans`); a
parse failure classifies the token as not authority-native. -/
def isStepCertificatesToken (parse : String → Option TokenClaims) (token : String) : Bool :=
  match parse token with
  | none => false
  | some claims => claims.sha.length != 0 || claims.sans.length != 0

/-- The root-of-trust resolution block shared verbatim by
`certificateFlow.getClient` and `revokeFlow.getClient`: pin the root by
the token's `sha` fingerprint and target the token audience when the
token carries both and the audience starts with "http"; otherwise require
a CA URL and an explicit root file or the existing default root path.
`defaultRootExists` is the result of `os.Stat(pki.GetRootCAPath())`. -/
def resolveRemote (defaultRootExists : Bool) (root caURL : String)
    (claims : TokenClaims) : Except Err Client :=
  if claims.sha ≠ "" ∧ claims.aud ≠ [] ∧
      strStartsWith (toLowerStr (claims.aud.headD "")) "http" then
    .ok (.remote (claims.aud.headD "") (.fingerprint claims.sha))
  else if caURL = "" then .error (.requiredFlag "ca-url")
  else if root = "" then
    if defaultRootExists then .ok (.remote caURL (.rootFile rootCAPath))
    else .error (.requiredFlag "root")
  else .ok (.remote caURL (.rootFile root))

/-- `certificateFlow.getClient` (certificate.go): offline returns the
embedded CA; online parses the token, requires the token subject to match
the requested subject case-insensitively, then resolves the root of
trust. -/
def certificateFlow.getClient (parse : String → Option TokenClaims)
    (defaultRootExists offline : Bool)
    (root caURL subject token : String) : Except Err Client :=
  if offline then .ok .offline
  else
    match parse token with
    | none => .error .tokenParse
    | some claims =>
      if toLowerStr claims.sub ≠ toLowerStr subject then
        .error (.tokenSubjectMismatch claims.sub subject)
      else resolveRemote defaultRootExists root caURL claims

/-- `revokeFlow.getClient` (revoke.go): same shape as the certificate
variant for a non-empty token (with the certificate serial number as the
requested subject); with no token, revocation goes over mutual TLS with
the supplied certificate/key pair. -/
def revokeFlow.getClient (parse : String → Option TokenClaims)
    (defaultRootExists loadKeyPairOk chainNonempty readCertPoolOk offline : Bool)
    (rootFile caURL serial token crtFile keyFile : String) : Except Err Client :=
  if offline then .ok .offline
  else if token ≠ "" then
    match parse token with
    | none => .error .tokenParse
    | some claims =>
      if toLowerStr claims.sub ≠ toLowerStr serial then
        .error (.tokenSubjectMismatch claims.sub serial)
      else resolveRemote defaultRootExists rootFile caURL claims
  else
    if ¬ loadKeyPairOk then .error (.failure "load-keypair")
    else if ¬ chainNonempty then .error (.failure "empty-chain")
    else if ¬ readCertPoolOk then .error (.failure "read-certpool")
    else .ok (.remote caURL (.mutualTLS crtFile keyFile rootFile))

theorem resolveRemote_no_mismatch (dre : Bool) (root caURL : String)
    (claims : TokenClaims) (a b : String) :
    resolveRemote dre root caURL claims ≠ .error (.tokenSubjectMismatch a b) := by
  unfold resolveRemote
  split
  · simp
  · split
    · simp
    · split
      · split <;> simp
      · simp

theorem certGetClient_online (parse : String → Option TokenClaims) (dre : Bool)
    (root caURL subject token : String) (claims : TokenClaims)
    (hparse : parse token = some claims) :
    certificateFlow.getClient parse dre false root caURL subject token
      = if toLowerStr claims.sub ≠ toLowerStr subject then
          .error (.tokenSubjectMismatch claims.sub subject)
        else resolveRemote dre root caURL claims := by
  simp only [certificateFlow.getClient, hparse]
  rw [if_neg Bool.false_ne_true]

theorem revokeGetClient_online (parse : String → Option TokenClaims)
    (dre ldOk chOk poolOk : Bool) (rootFile caURL serial token crtFile keyFile : String)
    (claims : TokenClaims) (hparse : parse token = some claims) (htok : token ≠ "") :
    revokeFlow.getClient parse dre ldOk chOk poolOk false rootFile caURL serial token crtFile keyFile
      = if toLowerStr claims.sub ≠ toLowerStr serial then
          .error (.tokenSubjectMismatch claims.sub serial)
        else resolveRemote dre rootFile caURL claims := by
  simp only [revokeFlow.getClient, hparse]
  rw [if_neg Bool.false_ne_true, if_pos htok]

/-- Claim C1: for every token-bearing online invocation (issue or revoke),
the client raises `TokenSubjectMismatch` if and only if the token's
subject claim, lower-cased, differs from the requested subject (issue) or
certificate serial number (revoke), lower-cased identically; on mismatch
the operation is a hard failure with exactly that error, never a silent
correction. -/
theorem claim1_token_subject_mismatch_iff
    (parse : String → Option TokenClaims) (dre ldOk chOk poolOk : Bool)
    (root caURL subject serial token crtF keyF : String) (claims : TokenClaims)
    (hparse : parse token = some claims) (htok : token ≠ "") :
    ((∃ a b, certificateFlow.getClient parse dre false root caURL subject token
        = .error (.tokenSubjectMismatch a b))
      ↔ ¬ toLowerStr claims.sub = toLowerStr subject)
    ∧ (¬ toLowerStr claims.sub = toLowerStr subject →
        certificateFlow.getClient parse dre false root caURL subject token
          = .error (.tokenSubjectMismatch claims.sub subject))
    ∧ ((∃ a b, revokeFlow.getClient parse dre ldOk chOk poolOk false root caURL serial token crtF keyF
        = .error (.tokenSubjectMismatch a b))
      ↔ ¬ toLowerStr claims.sub = toLowerStr serial)
    ∧ (¬ toLowerStr claims.sub = toLowerStr serial →
        revokeFlow.getClient parse dre ldOk chOk poolOk false root caURL serial token crtF keyF
          = .error (.tokenSubjectMismatch claims.sub serial)) := by
  refine ⟨?_, ?_, ?_, ?_⟩
  · constructor
    · rintro ⟨a, b, hab⟩ hmis
      rw [certGetClient_online parse dre root caURL subject token claims hparse,
        if_neg (not_not_intro hmis)] at hab
      exact resolveRemote_no_mismatch dre root caURL claims a b hab
    · intro hmis
      refine ⟨claims.sub, subject, ?_⟩
      rw [certGetClient_online parse dre root caURL subject token claims hparse, if_pos hmis]
  · intro hmis
    rw [certGetClient_online parse dre root caURL subject token claims hparse, if_pos hmis]
  · constructor
    · rintro ⟨a, b, hab⟩ hmis
      rw [revokeGetClient_online parse dre ldOk chOk poolOk root caURL serial token crtF keyF
        claims hparse htok, if_neg (not_not_intro hmis)] at hab
      exact resolveRemote_no_mismatch dre root caURL claims a b hab
    · intro hmis
      refine ⟨claims.sub, serial, ?_⟩
      rw [revokeGetClient_online parse dre ldOk chOk poolOk root caURL serial token crtF keyF
        claims hparse htok, if_pos hmis]
  · intro hmis
    rw [revokeGetClient_online parse dre ldOk chOk poolOk root caURL serial token crtF keyF
      claims hparse htok, if_pos hmis]

/-- Witness for claim C1 at a concrete mismatching and a concrete matching
token subject. -/
theorem claim1_witness :
    certificateFlow.getClient (fun t => if t = "tok" then some ⟨"Foo", [], "", [], ""⟩ else none)
        true false "" "" "bar" "tok"
      = .error (.tokenSubjectMismatch "Foo" "bar")
    ∧ ¬ (∃ a b, certificateFlow.getClient
        (fun t => if t = "tok" then some ⟨"Foo", [], "abc", [], ""⟩ else none)
        true false "" "" "FOO" "tok" = .error (.tokenSubjectMismatch a b)) := by
  constructor
  · exact (claim1_token_subject_mismatch_iff
      (fun t => if t = "tok" then some ⟨"Foo", [], "", [], ""⟩ else none)
      true true true true "" "" "bar" "bar" "tok" "" "" ⟨"Foo", [], "", [], ""⟩
      (by decide) (by decide)).2.1 (by decide)
  · intro hex
    exact absurd ((claim1_token_subject_mismatch_iff
      (fun t => if t = "tok" then some ⟨"Foo", [], "abc", [], ""⟩ else none)
      true true true true "" "" "FOO" "FOO" "tok" "" "" ⟨"Foo", [], "abc", [], ""⟩
      (by decide) (by decide)).1.mp hex) (by decide)

theorem resolveRemote_fingerprint (dre : Bool) (root caURL : String)
    (claims : TokenClaims) (a0 : String) (rest : List String)
    (haud : claims.aud = a0 :: rest) (hsha : claims.sha ≠ "")
    (hpre : strStartsWith (toLowerStr a0) "http" = true) :
    resolveRemote dre root caURL claims = .ok (.remote a0 (.fingerprint claims.sha)) := by
  unfold resolveRemote
  have hcond : claims.sha ≠ "" ∧ claims.aud ≠ [] ∧
      strStartsWith (toLowerStr (claims.aud.headD "")) "http" = true := by
    refine ⟨hsha, ?_, ?_⟩
    · rw [haud]; simp
    · rw [haud]; exact hpre
  rw [if_pos hcond, haud]
  rfl

theorem resolveRemote_fallback (dre : Bool) (root caURL : String) (claims : TokenClaims)
    (h : ¬ (claims.sha ≠ "" ∧ claims.aud ≠ [] ∧
      strStartsWith (toLowerStr (claims.aud.headD "")) "http" = true)) :
    resolveRemote dre root caURL claims
      = (if caURL = "" then .error (.requiredFlag "ca-url")
        else if root = "" then
          if dre then .ok (.remote caURL (.rootFile rootCAPath))
          else .error (.requiredFlag "root")
        else .ok (.remote caURL (.rootFile root))) := by
  unfold resolveRemote
  rw [if_neg h]

/-- Claim C2: token-based Remote client construction resolves the root of
trust by priority: with a non-empty `sha` claim and a first audience
starting with "http" (case-insensitively), the CA URL becomes that
audience and the root is pinned by fingerprint, with no root file needed;
otherwise an explicit CA URL is required together with an explicit root
file or the existing well-known default root path, that root file being
used; with neither, construction fails. -/
theorem claim2_root_of_trust_priority
    (parse : String → Option TokenClaims) (dre ldOk chOk poolOk : Bool)
    (root caURL subject token crtF keyF : String) (claims : TokenClaims)
    (hparse : parse token = some claims) (htok : token ≠ "")
    (hsub : toLowerStr claims.sub = toLowerStr subject) :
    (∀ a0 rest, claims.aud = a0 :: rest → claims.sha ≠ "" →
        strStartsWith (toLowerStr a0) "http" = true →
      certificateFlow.getClient parse dre false root caURL subject token
          = .ok (.remote a0 (.fingerprint claims.sha))
        ∧ revokeFlow.getClient parse dre ldOk chOk poolOk false root caURL subject token crtF keyF
          = .ok (.remote a0 (.fingerprint claims.sha)))
    ∧ ((claims.sha = "" ∨ claims.aud = []
          ∨ strStartsWith (toLowerStr (claims.aud.headD "")) "http" = false) →
        ((caURL = "" →
          certificateFlow.getClient parse dre false root caURL subject token
              = .error (.requiredFlag "ca-url")
            ∧ revokeFlow.getClient parse dre ldOk chOk poolOk false root caURL subject token crtF keyF
              = .error (.requiredFlag "ca-url"))
        ∧ (caURL ≠ "" → root ≠ "" →
          certificateFlow.getClient parse dre false root caURL subject token
              = .ok (.remote caURL (.rootFile root))
            ∧ revokeFlow.getClient parse dre ldOk chOk poolOk false root caURL subject token crtF keyF
              = .ok (.remote caURL (.rootFile root)))
        ∧ (caURL ≠ "" → root = "" → dre = true →
          certificateFlow.getClient parse dre false root caURL subject token
              = .ok (.remote caURL (.rootFile rootCAPath))
            ∧ revokeFlow.getClient parse dre ldOk chOk poolOk false root caURL subject token crtF keyF
              = .ok (.remote caURL (.rootFile rootCAPath)))
        ∧ (caURL ≠ "" → root = "" → dre = false →
          certificateFlow.getClient parse dre false root caURL subject token
              = .error (.requiredFlag "root")
            ∧ revokeFlow.getClient parse dre ldOk chOk poolOk false root caURL subject token crtF keyF
              = .error (.requiredFlag "root")))) := by
  have h1 : certificateFlow.getClient parse dre false root caURL subject token
      = resolveRemote dre root caURL claims := by
    rw [certGetClient_online parse dre root caURL subject token claims hparse,
      if_neg (not_not_intro hsub)]
  have h2 : revokeFlow.getClient parse dre ldOk chOk poolOk false root caURL subject token crtF keyF
      = resolveRemote dre root caURL claims := by
    rw [revokeGetClient_online parse dre ldOk chOk poolOk root caURL subject token crtF keyF
      claims hparse htok, if_neg (not_not_intro hsub)]
  rw [h1, h2]
  refine ⟨?_, ?_⟩
  · intro a0 rest haud hsha hpre
    rw [resolveRemote_fingerprint dre root caURL claims a0 rest haud hsha hpre]
    exact ⟨rfl, rfl⟩
  · intro hno
    have hcond : ¬ (claims.sha ≠ "" ∧ claims.aud ≠ [] ∧
        strStartsWith (toLowerStr (claims.aud.headD "")) "http" = true) := by
      rintro ⟨c1, c2, c3⟩
      rcases hno with h | h | h
      · exact c1 h
      · exact c2 h
      · rw [h] at c3; exact Bool.false_ne_true c3
    rw [resolveRemote_fallback dre root caURL claims hcond]
    refine ⟨?_, ?_, ?_, ?_⟩
    · intro hurl; rw [if_pos hurl]; exact ⟨rfl, rfl⟩
    · intro hurl hroot
      rw [if_neg hurl, if_neg hroot]
      exact ⟨rfl, rfl⟩
    · intro hurl hroot hdre
      rw [if_neg hurl, if_pos hroot, hdre, if_pos rfl]
      exact ⟨rfl, rfl⟩
    · intro hurl hroot hdre
      rw [if_neg hurl, if_pos hroot, hdre]
      rw [if_neg Bool.false_ne_true]
      exact ⟨rfl, rfl⟩

/-- Witness for claim C2: a token with a fingerprint claim and audience
"https://ca.example.com/sign" pins the root by fingerprint with no root
file; a token without those claims falls back to the explicit CA URL and
root file. -/
theorem claim2_witness :
    certificateFlow.getClient
        (fun t => if t = "tok" then some ⟨"x", ["https://ca.example.com/sign"], "abc", [], ""⟩ else none)
        false false "" "" "x" "tok"
      = .ok (.remote "https://ca.example.com/sign" (.fingerprint "abc"))
    ∧ revokeFlow.getClient
        (fun t => if t = "tok" then some ⟨"x", [], "", [], ""⟩ else none)
        false true true true false "r.crt" "https://other" "x" "tok" "" ""
      = .ok (.remote "https://other" (.rootFile "r.crt")) := by
  constructor
  · exact ((claim2_root_of_trust_priority
      (fun t => if t = "tok" then some ⟨"x", ["https://ca.example.com/sign"], "abc", [], ""⟩ else none)
      false true true true "" "" "x" "tok" "" "" ⟨"x", ["https://ca.example.com/sign"], "abc", [], ""⟩
      (by decide) (by decide) (by decide)).1 "https://ca.example.com/sign" [] rfl
      (by decide) (by decide)).1
  · exact (((claim2_root_of_trust_priority
      (fun t => if t = "tok" then some ⟨"x", [], "", [], ""⟩ else none)
      false true true true "r.crt" "https://other" "x" "tok" "" "" ⟨"x", [], "", [], ""⟩
      (by decide) (by decide) (by decide)).2 (Or.inl rfl)).2.1 (by decide) (by decide)).2

/-! ## Revocation reasons and the embedded Revoke

`api.ReasonStringToCode` is not part of the shown source; it is modelled
from the spec's list of recognized reason strings and from the identical
commented-out `ReasonStringToCode`/`RevocationReasonCodes` block at the
top of revoke.go, with the RFC 5280 numeric codes of the `ocsp`
package. -/

/-- Modelled from the spec: the map between lower-cased reason strings and
RFC 5280 numeric codes (`RevocationReasonCodes`). -/
def RevocationReasonCodes : List (String × Nat) :=
  [("unspecified", 0), ("keycompromise", 1), ("cacompromise", 2),
   ("affiliationchanged", 3), ("superseded", 4), ("cessationofoperation", 5),
   ("certificatehold", 6), ("removefromcrl", 8), ("privilegewithdrawn", 9),
   ("aacompromise", 10)]

/-- Modelled from the spec: `ReasonStringToCode` converts a reason string
to an integer code; the empty string defaults to 0, an unknown string is
an unrecognized-revocation-reason error. -/
def ReasonStringToCode (reason : String) : Except Err Nat :=
  if reason = "" then .ok 0
  else
    match RevocationReasonCodes.lookup (toLowerStr reason) with
    | some code => .ok code
    | none => .error (.unrecognizedReason reason)

/-- `offlineCA.Revoke` (offline CA wrapper): convert the reason string to
a numeric code, failing before the authority is called on an unrecognized
reason, then call `authority.Revoke(serial, "provisioner-id", code)`.
`authorityRevokeOk` is the outcome of the embedded authority call. -/
def offlineCA.Revoke (authorityRevokeOk : Bool) (serial reason : String) :
    Except Err String × List Effect :=
  match ReasonStringToCode reason with
  | .error e => (.error e, [])
  | .ok code =>
    if authorityRevokeOk then
      (.ok "ok", [.authorityRevoke serial "provisioner-id" code])
    else
      (.error (.failure "authority-revoke"), [.authorityRevoke serial "provisioner-id" code])

/-- Claim C7: the reason-string conversion is case-insensitive, defined on
exactly the ten RFC 5280 reason names with their numeric codes, the empty
string yields code 0, and any other non-empty string makes the embedded
Revoke fail with an unrecognized-revocation-reason error before the
authority is called (empty effect trace). -/
theorem claim7_reason_to_code :
    ReasonStringToCode "" = .ok 0
    ∧ (∀ r code, RevocationReasonCodes.lookup (toLowerStr r) = some code →
        ReasonStringToCode r = .ok code)
    ∧ (∀ r, r ≠ "" → RevocationReasonCodes.lookup (toLowerStr r) = none →
        ∀ aOk serial, offlineCA.Revoke aOk serial r = (.error (.unrecognizedReason r), []))
    ∧ ReasonStringToCode "Unspecified" = .ok 0
    ∧ ReasonStringToCode "KeyCompromise" = .ok 1
    ∧ ReasonStringToCode "CACompromise" = .ok 2
    ∧ ReasonStringToCode "AffiliationChanged" = .ok 3
    ∧ ReasonStringToCode "Superseded" = .ok 4
    ∧ ReasonStringToCode "CessationOfOperation" = .ok 5
    ∧ ReasonStringToCode "CertificateHold" = .ok 6
    ∧ ReasonStringToCode "RemoveFromCRL" = .ok 8
    ∧ ReasonStringToCode "PrivilegeWithdrawn" = .ok 9
    ∧ ReasonStringToCode "AACompromise" = .ok 10 := by
  refine ⟨by decide, ?_, ?_, by decide, by decide, by decide, by decide, by decide,
    by decide, by decide, by decide, by decide, by decide⟩
  · intro r code h
    by_cases hr : r = ""
    · subst hr
      have hnone : RevocationReasonCodes.lookup (toLowerStr "") = none := by decide
      rw [hnone] at h
      cases h
    · rw [ReasonStringToCode, if_neg hr, h]
  · intro r hr h aOk serial
    rw [offlineCA.Revoke, ReasonStringToCode, if_neg hr, h]

/-- Witness for claim C7: a mixed-case recognized reason converts, an
unknown reason aborts the embedded Revoke with no authority call. -/
theorem claim7_witness :
    ReasonStringToCode "kEyCoMpRoMiSe" = .ok 1
    ∧ offlineCA.Revoke true "123" "bogus" = (.error (.unrecognizedReason "bogus"), []) := by
  constructor
  · exact claim7_reason_to_code.2.1 "kEyCoMpRoMiSe" 1 (by decide)
  · exact claim7_reason_to_code.2.2.1 "bogus" (by decide) (by decide) true "123"

/-! ## The certificate issue pipeline (`certificateAction`)

The environment carries the outcome of every external collaborator the
action consults; `genTokenVal` is the token produced by
`flow.GenerateToken` when the token flag is empty, and the boolean fields
report success of the corresponding external step (a `false` stands for
the step failing with its own error, modelled as `Err.failure`). -/

structure CertEnv where
  parse : String → Option TokenClaims
  newOfflineCAOk : Bool
  genTokenOk : Bool
  genTokenVal : String
  keygenOk : Bool
  csrOk : Bool
  validityOk : Bool
  signOk : Bool
  serializeOk : Bool
  writeCrtOk : Bool
  writeKeyOk : Bool
  defaultRootExists : Bool

/-- The CLI-level inputs of `certificateAction`: positional arguments and
the token / offline / san / root / ca-url / ca-config flags. -/
structure CertInput where
  args : List String
  token : String
  offline : Bool
  sans : List String
  root : String
  caURL : String
  caConfig : String

/-- `certificateFlow.CreateSignRequest` (certificate.go): parse the token
without verification, generate a key pair, merge and split the SANs,
build the CSR template with the token subject as common name and the
token email claim (when non-empty) as the only email address, then
create, re-parse and self-verify the CSR (`csrOk` covers those three
external steps). -/
def certificateFlow.CreateSignRequest (parse : String → Option TokenClaims)
    (keygenOk csrOk : Bool) (token : String) (sans : List String) : Except Err CSR :=
  match parse token with
  | none => .error .tokenParse
  | some claims =>
    if ¬ keygenOk then .error (.failure "generate-key")
    else if ¬ csrOk then .error (.failure "create-csr")
    else .ok ⟨claims.sub,
      (splitSANs isIPLiteral [sans, claims.sans]).1,
      (splitSANs isIPLiteral [sans, claims.sans]).2,
      if claims.email ≠ "" then [claims.email] else []⟩

/-- `certificateFlow.Sign` (certificate.go): build the client for the CSR
common name, parse the validity flags, call the client's `Sign`,
serialize the returned leaf and issuer certificates, and write the
certificate file.  The trace records the client construction, the sign
call and the completed certificate write. -/
def certificateFlow.Sign (env : CertEnv) (offline : Bool)
    (root caURL token : String) (csr : CSR) (crtFile : String) :
    Except Err Unit × List Effect :=
  match certificateFlow.getClient env.parse env.defaultRootExists offline
      root caURL csr.commonName token with
  | .error e => (.error e, [])
  | .ok _client =>
    if ¬ env.validityOk then (.error (.failure "parse-validity"), [.builtClient])
    else if ¬ env.signOk then (.error (.failure "client-sign"), [.builtClient, .calledSign])
    else if ¬ env.serializeOk then (.error (.failure "pem-serialize"), [.builtClient, .calledSign])
    else if ¬ env.writeCrtOk then (.error (.failure "write-crt"), [.builtClient, .calledSign])
    else (.ok (), [.builtClient, .calledSign, .wroteCrt])

/-- The tail of `certificateAction` after the subject checks: call
`flow.Sign` and, only when it succeeded, serialize the private key to the
key file. -/
def certActionSignAndWrite (env : CertEnv) (inp : CertInput)
    (token crtFile keyFile : String) (csr : CSR) (eff0 : List Effect) :
    Except Err Unit × List Effect :=
  match certificateFlow.Sign env inp.offline inp.root inp.caURL token csr crtFile with
  | (.error e, eff) => (.error e, eff0 ++ eff)
  | (.ok _, eff) =>
    if ¬ env.writeKeyOk then (.error (.failure "serialize-key"), eff0 ++ eff)
    else (.ok (), eff0 ++ eff ++ [.wroteKey])

/-- The part of `certificateAction` after the token is in hand: build the
sign request, check the caller subject against the CSR common name
(authority-native token, case-insensitively) or against the CSR's first
email address (externally issued token, byte-for-byte), then sign and
persist. -/
def certActionAfterToken (env : CertEnv) (inp : CertInput)
    (subject crtFile keyFile token : String) (isStepToken : Bool)
    (eff0 : List Effect) : Except Err Unit × List Effect :=
  match certificateFlow.CreateSignRequest env.parse env.keygenOk env.csrOk token inp.sans with
  | .error e => (.error e, eff0)
  | .ok csr =>
    if isStepToken then
      if toLowerStr subject ≠ toLowerStr csr.commonName then
        (.error (.commonNameMismatch csr.commonName subject), eff0)
      else certActionSignAndWrite env inp token crtFile keyFile csr eff0
    else
      match csr.emailAddresses with
      | [] => (.error .noEmailClaim, eff0)
      | email :: _ =>
        if email ≠ subject then (.error (.emailMismatch email subject), eff0)
        else certActionSignAndWrite env inp token crtFile keyFile csr eff0

/-- `certificateAction` (certificate.go): argument-count check, the
offline/token flag conflict, flow construction, token acquisition and
classification, the token/san conflict for authority-native tokens, then
the request pipeline. -/
def certificateAction (env : CertEnv) (inp : CertInput) :
    Except Err Unit × List Effect :=
  if inp.args.length ≠ 3 then (.error .numberOfArguments, [])
  else if inp.offline ∧ inp.token ≠ "" then
    (.error (.incompatibleFlags "offline" "token"), [])
  else if inp.offline ∧ inp.caConfig = "" then
    (.error (.invalidFlagValue "ca-config" ""), [])
  else if inp.offline ∧ ¬ env.newOfflineCAOk then (.error (.failure "new-offline-ca"), [])
  else if inp.token = "" then
    if ¬ env.genTokenOk then (.error (.failure "generate-token"), [])
    else certActionAfterToken env inp (inp.args.getD 0 "") (inp.args.getD 1 "")
      (inp.args.getD 2 "") env.genTokenVal
      (isStepCertificatesToken env.parse env.genTokenVal) [.generatedToken]
  else if isStepCertificatesToken env.parse inp.token ∧ inp.sans ≠ [] then
    (.error (.mutuallyExclusiveFlags "token" "san"), [])
  else certActionAfterToken env inp (inp.args.getD 0 "") (inp.args.getD 1 "")
    (inp.args.getD 2 "") inp.token (isStepCertificatesToken env.parse inp.token) []

/-! ## The revoke pipeline (`revokeCertificateAction`) -/

structure RevokeEnv where
  parse : String → Option TokenClaims
  newOfflineCAOk : Bool
  genTokenOk : Bool
  genTokenVal : String
  defaultRootExists : Bool
  loadKeyPairOk : Bool
  chainNonempty : Bool
  readCertPoolOk : Bool
  authorityRevokeOk : Bool
  remoteRevokeOk : Bool

structure RevokeInput where
  args : List String
  crt : String
  key : String
  token : String
  offline : Bool
  reason : String
  root : String
  caURL : String
  caConfig : String

/-- `revokeFlow.Revoke` (revoke.go): build the client, then call its
`Revoke` with the serial, reason and token; the offline client is the
embedded `offlineCA.Revoke`, the remote client is a network call. -/
def revokeFlow.Revoke (env : RevokeEnv) (inp : RevokeInput)
    (serial reason token crtFile keyFile : String) : Except Err Unit × List Effect :=
  match revokeFlow.getClient env.parse env.defaultRootExists env.loadKeyPairOk
      env.chainNonempty env.readCertPoolOk inp.offline inp.root inp.caURL
      serial token crtFile keyFile with
  | .error e => (.error e, [])
  | .ok .offline =>
    match offlineCA.Revoke env.authorityRevokeOk serial reason with
    | (.error e, eff) => (.error e, .builtClient :: eff)
    | (.ok _, eff) => (.ok (), .builtClient :: eff)
  | .ok (.remote _ _) =>
    if env.remoteRevokeOk then (.ok (), [.builtClient, .calledRevoke])
    else (.error (.failure "client-revoke"), [.builtClient, .calledRevoke])

/-- The tail of `revokeCertificateAction`: call `flow.Revoke`. -/
def revokeActionFinish (env : RevokeEnv) (inp : RevokeInput)
    (serial token : String) (eff0 : List Effect) : Except Err Unit × List Effect :=
  match revokeFlow.Revoke env inp serial inp.reason token inp.crt inp.key with
  | (.error e, eff) => (.error e, eff0 ++ eff)
  | (.ok _, eff) => (.ok (), eff0 ++ eff)

/-- `revokeCertificateAction` (revoke.go): argument-count check, the
offline/token flag conflict, flow construction, the crt/key pairing
checks (the `len(token) > 0` sub-branch there is an empty statement in
the source), token generation when neither a token nor a crt/key pair was
given, then `flow.Revoke`. -/
def revokeCertificateAction (env : RevokeEnv) (inp : RevokeInput) :
    Except Err Unit × List Effect :=
  if inp.args.length ≠ 1 then (.error .numberOfArguments, [])
  else if inp.offline ∧ inp.token ≠ "" then
    (.error (.incompatibleFlags "offline" "token"), [])
  else if inp.offline ∧ inp.caConfig = "" then
    (.error (.invalidFlagValue "ca-config" ""), [])
  else if inp.offline ∧ ¬ env.newOfflineCAOk then (.error (.failure "new-offline-ca"), [])
  else if inp.crt ≠ "" ∨ inp.key ≠ "" then
    if inp.crt = "" then (.error (.requiredWithFlag "key" "crt"), [])
    else if inp.key = "" then (.error (.requiredWithFlag "crt" "key"), [])
    else revokeActionFinish env inp (inp.args.getD 0 "") inp.token []
  else if inp.token = "" then
    if ¬ env.genTokenOk then (.error (.failure "generate-token"), [])
    else revokeActionFinish env inp (inp.args.getD 0 "") env.genTokenVal [.generatedToken]
  else revokeActionFinish env inp (inp.args.getD 0 "") inp.token []

/-- A certificate-action environment in which every external collaborator
succeeds. -/
def cEnvAllOk (parse : String → Option TokenClaims) : CertEnv :=
  ⟨parse, true, true, "", true, true, true, true, true, true, true, true⟩

/-- A revoke-action environment in which every external collaborator
succeeds. -/
def rEnvAllOk (parse : String → Option TokenClaims) : RevokeEnv :=
  ⟨parse, true, true, "", true, true, true, true, true, true⟩

/-- Counterexample for claim C4 as stated: with the offline flag set and a
non-empty token but a wrong number of positional arguments (here: none),
both actions fail with the argument-count error, not with the
incompatible-flag conflict, so the conflict does not fire "regardless of
all other flags and arguments". -/
theorem claim4_counterexample :
    certificateAction (cEnvAllOk (fun _ => none)) ⟨[], "t", true, [], "", "", "cfg"⟩
      = (.error .numberOfArguments, [])
    ∧ certificateAction (cEnvAllOk (fun _ => none)) ⟨[], "t", true, [], "", "", "cfg"⟩
      ≠ (.error (.incompatibleFlags "offline" "token"), [])
    ∧ revokeCertificateAction (rEnvAllOk (fun _ => none))
        ⟨[], "", "", "t", true, "", "", "", "cfg"⟩
      = (.error .numberOfArguments, [])
    ∧ revokeCertificateAction (rEnvAllOk (fun _ => none))
        ⟨[], "", "", "t", true, "", "", "", "cfg"⟩
      ≠ (.error (.incompatibleFlags "offline" "token"), []) := by
  exact ⟨by decide, by decide, by decide, by decide⟩

/-- Claim C4 (amended): for every invocation of the issue or revoke action
that carries the expected number of positional arguments (three for
issue, one for revoke), if the offline flag is set and the token flag is
non-empty, the action fails with the incompatible-flag conflict before
any client is constructed or any token is generated (empty effect trace),
regardless of all other flags and argument values. -/
theorem claim4_offline_token_conflict
    (cenv : CertEnv) (cinp : CertInput) (renv : RevokeEnv) (rinp : RevokeInput)
    (hc : cinp.args.length = 3) (hr : rinp.args.length = 1)
    (hcoff : cinp.offline = true) (hctok : cinp.token ≠ "")
    (hroff : rinp.offline = true) (hrtok : rinp.token ≠ "") :
    certificateAction cenv cinp = (.error (.incompatibleFlags "offline" "token"), [])
    ∧ revokeCertificateAction renv rinp
      = (.error (.incompatibleFlags "offline" "token"), []) := by
  constructor
  · rw [certificateAction, if_neg (not_not_intro hc), if_pos ⟨hcoff, hctok⟩]
  · rw [revokeCertificateAction, if_neg (not_not_intro hr), if_pos ⟨hroff, hrtok⟩]

/-- Witness for the amended claim C4 at concrete inputs. -/
theorem claim4_witness :
    certificateAction (cEnvAllOk (fun _ => none)) ⟨["s", "c", "k"], "t", true, [], "", "", "cfg"⟩
      = (.error (.incompatibleFlags "offline" "token"), [])
    ∧ revokeCertificateAction (rEnvAllOk (fun _ => none))
        ⟨["123"], "", "", "t", true, "", "", "", "cfg"⟩
      = (.error (.incompatibleFlags "offline" "token"), []) :=
  claim4_offline_token_conflict (cEnvAllOk (fun _ => none))
    ⟨["s", "c", "k"], "t", true, [], "", "", "cfg"⟩
    (rEnvAllOk (fun _ => none)) ⟨["123"], "", "", "t", true, "", "", "", "cfg"⟩
    rfl rfl rfl (by decide) rfl (by decide)

/-- Counterexample for claim C9 as stated: a non-empty token that is not
authority-native (no `sha`, no `sans` claims — e.g. a federated identity
token) together with a non-empty SAN list does not produce the
mutually-exclusive-flags conflict; the flow proceeds past the conflict
check (here up to the email/subject comparison). -/
theorem claim9_counterexample :
    certificateAction
        (cEnvAllOk (fun t => if t = "t" then some ⟨"s", [], "", [], "e"⟩ else none))
        ⟨["joe", "c", "k"], "t", false, ["x"], "", "", ""⟩
      = (.error (.emailMismatch "e" "joe"), [])
    ∧ certificateAction
        (cEnvAllOk (fun t => if t = "t" then some ⟨"s", [], "", [], "e"⟩ else none))
        ⟨["joe", "c", "k"], "t", false, ["x"], "", "", ""⟩
      ≠ (.error (.mutuallyExclusiveFlags "token" "san"), []) := by
  exact ⟨by decide, by decide⟩

/-- Claim C9 (amended): in the issue flow, supplying a non-empty token
that is classified as authority-native together with a non-empty SAN list
fails with the mutually-exclusive-flags conflict (token/san), for every
such invocation with three positional arguments and the offline flag
unset. -/
theorem claim9_token_san_conflict (env : CertEnv) (inp : CertInput)
    (hargs : inp.args.length = 3) (hoff : inp.offline = false)
    (htok : inp.token ≠ "")
    (hnative : isStepCertificatesToken env.parse inp.token = true)
    (hsans : inp.sans ≠ []) :
    certificateAction env inp = (.error (.mutuallyExclusiveFlags "token" "san"), []) := by
  rw [certificateAction, if_neg (not_not_intro hargs), if_neg (by simp [hoff]),
    if_neg (by simp [hoff]), if_neg (by simp [hoff]), if_neg htok,
    if_pos ⟨hnative, hsans⟩]

/-- Witness for the amended claim C9 at a concrete authority-native token
(non-empty `sha` claim) with a SAN flag. -/
theorem claim9_witness :
    certificateAction
        (cEnvAllOk (fun t => if t = "t" then some ⟨"s", [], "abc", [], ""⟩ else none))
        ⟨["s", "c", "k"], "t", false, ["x"], "", "", ""⟩
      = (.error (.mutuallyExclusiveFlags "token" "san"), []) :=
  claim9_token_san_conflict
    (cEnvAllOk (fun t => if t = "t" then some ⟨"s", [], "abc", [], ""⟩ else none))
    ⟨["s", "c", "k"], "t", false, ["x"], "", "", ""⟩
    rfl rfl (by decide) (by decide) (by decide)

/-! ## Helper lemmas on the issue pipeline -/

theorem length_ne_zero_iff (s : String) : s.length ≠ 0 ↔ s ≠ "" := by
  constructor
  · intro h he; subst he; exact h rfl
  · intro h hl
    apply h
    cases s with
    | mk data =>
      cases data with
      | nil => rfl
      | cons c cs =>
        have hx : (String.mk (c :: cs)).length = cs.length + 1 := rfl
        rw [hx] at hl
        omega

theorem isStep_eq (parse : String → Option TokenClaims) (token : String)
    (claims : TokenClaims) (hparse : parse token = some claims) :
    isStepCertificatesToken parse token = true ↔ (claims.sha ≠ "" ∨ claims.sans ≠ []) := by
  simp only [isStepCertificatesToken, hparse, Bool.or_eq_true, bne_iff_ne, ne_eq]
  constructor
  · rintro (h | h)
    · exact Or.inl ((length_ne_zero_iff _).mp h)
    · exact Or.inr fun he => h (by rw [he]; rfl)
  · rintro (h | h)
    · exact Or.inl ((length_ne_zero_iff _).mpr h)
    · exact Or.inr fun hl => h (List.length_eq_zero.mp hl)

/-- The error classes that the sign-and-persist tail of the issue flow can
produce: everything downstream of the subject checks. -/
def TailErr (e : Err) : Prop :=
  e = .tokenParse ∨ (∃ a b, e = .tokenSubjectMismatch a b)
    ∨ (∃ f, e = .requiredFlag f) ∨ (∃ t, e = .failure t)

theorem resolveRemote_errors (dre : Bool) (root caURL : String) (claims : TokenClaims) :
    ∀ e, resolveRemote dre root caURL claims = .error e → ∃ f, e = .requiredFlag f := by
  intro e
  unfold resolveRemote
  split
  · intro h; simp at h
  · split
    · intro h
      injection h with h2
      exact ⟨"ca-url", h2.symm⟩
    · split
      · split
        · intro h; simp at h
        · intro h
          injection h with h2
          exact ⟨"root", h2.symm⟩
      · intro h; simp at h

theorem getClient_cert_errors (parse : String → Option TokenClaims) (dre offline : Bool)
    (root caURL subject token : String) :
    ∀ e, certificateFlow.getClient parse dre offline root caURL subject token = .error e →
      TailErr e := by
  intro e
  unfold certificateFlow.getClient
  split
  · intro h; simp at h
  · split
    · intro h
      injection h with h2
      exact Or.inl h2.symm
    · split
      · intro h
        injection h with h2
        exact Or.inr (Or.inl ⟨_, _, h2.symm⟩)
      · intro h
        rcases resolveRemote_errors _ _ _ _ e h with ⟨f, hf⟩
        exact Or.inr (Or.inr (Or.inl ⟨f, hf⟩))

theorem sign_errors (env : CertEnv) (offline : Bool) (root caURL token : String)
    (csr : CSR) (crtFile : String) :
    ∀ e, (certificateFlow.Sign env offline root caURL token csr crtFile).1 = .error e →
      TailErr e := by
  intro e
  unfold certificateFlow.Sign
  split
  · next e' heq =>
    intro h
    injection h with h2
    exact h2 ▸ getClient_cert_errors env.parse env.defaultRootExists offline
      root caURL csr.commonName token e' heq
  · split
    · intro h
      injection h with h2
      exact Or.inr (Or.inr (Or.inr ⟨_, h2.symm⟩))
    · split
      · intro h
        injection h with h2
        exact Or.inr (Or.inr (Or.inr ⟨_, h2.symm⟩))
      · split
        · intro h
          injection h with h2
          exact Or.inr (Or.inr (Or.inr ⟨_, h2.symm⟩))
        · split
          · intro h
            injection h with h2
            exact Or.inr (Or.inr (Or.inr ⟨_, h2.symm⟩))
          · intro h; simp at h

theorem signAndWrite_errors (env : CertEnv) (inp : CertInput)
    (token crtFile keyFile : String) (csr : CSR) (eff0 : List Effect) :
    ∀ e, (certActionSignAndWrite env inp token crtFile keyFile csr eff0).1 = .error e →
      TailErr e := by
  intro e
  unfold certActionSignAndWrite
  split
  · next e' eff' heq =>
    intro h
    injection h with h2
    refine h2 ▸ sign_errors env inp.offline inp.root inp.caURL token csr crtFile e' ?_
    rw [heq]
  · split
    · intro h
      injection h with h2
      exact Or.inr (Or.inr (Or.inr ⟨_, h2.symm⟩))
    · intro h; simp at h

theorem tailErr_ne (e : Err) (h : TailErr e) :
    (∀ a b, e ≠ .commonNameMismatch a b) ∧ (∀ a b, e ≠ .emailMismatch a b)
      ∧ e ≠ .noEmailClaim := by
  refine ⟨?_, ?_, ?_⟩
  · intro a b hx
    rcases h with h | ⟨x, y, h⟩ | ⟨f, h⟩ | ⟨t, h⟩ <;> subst h <;> cases hx
  · intro a b hx
    rcases h with h | ⟨x, y, h⟩ | ⟨f, h⟩ | ⟨t, h⟩ <;> subst h <;> cases hx
  · intro hx
    rcases h with h | ⟨x, y, h⟩ | ⟨f, h⟩ | ⟨t, h⟩ <;> subst h <;> cases hx

theorem certAction_token_branch (env : CertEnv) (inp : CertInput)
    (hargs : inp.args.length = 3) (hoff : inp.offline = false) (htok : inp.token ≠ "")
    (hnoconf : ¬ (isStepCertificatesToken env.parse inp.token = true ∧ inp.sans ≠ [])) :
    certificateAction env inp
      = certActionAfterToken env inp (inp.args.getD 0 "") (inp.args.getD 1 "")
          (inp.args.getD 2 "") inp.token (isStepCertificatesToken env.parse inp.token) [] := by
  rw [certificateAction, if_neg (not_not_intro hargs), if_neg (by simp [hoff]),
    if_neg (by simp [hoff]), if_neg (by simp [hoff]), if_neg htok, if_neg hnoconf]

/-- The CSR that `CreateSignRequest` builds from a parsed token and the
caller-supplied SANs. -/
def csrOfClaims (claims : TokenClaims) (sans : List String) : CSR :=
  ⟨claims.sub, (splitSANs isIPLiteral [sans, claims.sans]).1,
    (splitSANs isIPLiteral [sans, claims.sans]).2,
    if claims.email ≠ "" then [claims.email] else []⟩

theorem createSignRequest_ok (parse : String → Option TokenClaims) (kg cs : Bool)
    (hkg : kg = true) (hcs : cs = true) (token : String) (sans : List String)
    (claims : TokenClaims) (hparse : parse token = some claims) :
    certificateFlow.CreateSignRequest parse kg cs token sans
      = .ok (csrOfClaims claims sans) := by
  subst hkg
  subst hcs
  simp only [certificateFlow.CreateSignRequest, hparse]
  rw [if_neg (by simp), if_neg (by simp)]
  rfl

theorem afterToken_ok_reduce (env : CertEnv) (inp : CertInput)
    (subject crtFile keyFile token : String) (isStep : Bool) (eff0 : List Effect)
    (claims : TokenClaims) (hparse : env.parse token = some claims)
    (hkey : env.keygenOk = true) (hcsr : env.csrOk = true) :
    certActionAfterToken env inp subject crtFile keyFile token isStep eff0
      = (if isStep then
          if toLowerStr subject ≠ toLowerStr claims.sub then
            (.error (.commonNameMismatch claims.sub subject), eff0)
          else certActionSignAndWrite env inp token crtFile keyFile
            (csrOfClaims claims inp.sans) eff0
        else
          match (if claims.email ≠ "" then [claims.email] else []) with
          | [] => (.error .noEmailClaim, eff0)
          | email :: _ =>
            if email ≠ subject then (.error (.emailMismatch email subject), eff0)
            else certActionSignAndWrite env inp token crtFile keyFile
              (csrOfClaims claims inp.sans) eff0) := by
  simp only [certActionAfterToken]
  rw [createSignRequest_ok env.parse env.keygenOk env.csrOk hkey hcsr token inp.sans
    claims hparse]
  rfl

theorem afterToken_nonnative_noemail (env : CertEnv) (inp : CertInput)
    (subject crtFile keyFile token : String) (eff0 : List Effect)
    (claims : TokenClaims) (hparse : env.parse token = some claims)
    (hkey : env.keygenOk = true) (hcsr : env.csrOk = true)
    (hne : claims.email = "") :
    certActionAfterToken env inp subject crtFile keyFile token false eff0
      = (.error .noEmailClaim, eff0) := by
  rw [afterToken_ok_reduce env inp subject crtFile keyFile token false eff0
    claims hparse hkey hcsr]
  rw [if_neg Bool.false_ne_true, if_neg (not_not_intro hne)]

theorem afterToken_nonnative_email (env : CertEnv) (inp : CertInput)
    (subject crtFile keyFile token : String) (eff0 : List Effect)
    (claims : TokenClaims) (hparse : env.parse token = some claims)
    (hkey : env.keygenOk = true) (hcsr : env.csrOk = true)
    (hne : claims.email ≠ "") :
    certActionAfterToken env inp subject crtFile keyFile token false eff0
      = (if claims.email ≠ subject then
          (.error (.emailMismatch claims.email subject), eff0)
        else certActionSignAndWrite env inp token crtFile keyFile
          (csrOfClaims claims inp.sans) eff0) := by
  rw [afterToken_ok_reduce env inp subject crtFile keyFile token false eff0
    claims hparse hkey hcsr]
  rw [if_neg Bool.false_ne_true, if_pos hne]

/-- Claim C10: in the issue flow, a supplied non-native (externally
issued) token with a CSR carrying no email address fails with the
missing-email-claim error; otherwise the first email address is compared
to the caller's subject argument byte-for-byte — exact string equality,
unlike the lower-cased comparison used for native tokens. -/
theorem claim10_email_check (env : CertEnv) (inp : CertInput) (claims : TokenClaims)
    (hargs : inp.args.length = 3) (hoff : inp.offline = false) (htok : inp.token ≠ "")
    (hparse : env.parse inp.token = some claims)
    (hsha : claims.sha = "") (hsans : claims.sans = [])
    (hkey : env.keygenOk = true) (hcsr : env.csrOk = true) :
    (claims.email = "" → certificateAction env inp = (.error .noEmailClaim, []))
    ∧ (claims.email ≠ "" → claims.email ≠ inp.args.getD 0 "" →
        certificateAction env inp
          = (.error (.emailMismatch claims.email (inp.args.getD 0 "")), []))
    ∧ (claims.email = inp.args.getD 0 "" →
        ∀ a b, (certificateAction env inp).1 ≠ .error (.emailMismatch a b)) := by
  have hstep : isStepCertificatesToken env.parse inp.token = false := by
    cases hb : isStepCertificatesToken env.parse inp.token
    · rfl
    · rcases (isStep_eq env.parse inp.token claims hparse).mp hb with hc | hc
      · exact absurd hsha hc
      · exact absurd hsans hc
  have hnoconf : ¬ (isStepCertificatesToken env.parse inp.token = true ∧ inp.sans ≠ []) := by
    rw [hstep]
    rintro ⟨h, _⟩
    cases h
  have hred := certAction_token_branch env inp hargs hoff htok hnoconf
  rw [hstep] at hred
  refine ⟨?_, ?_, ?_⟩
  · intro hemail
    rw [hred, afterToken_nonnative_noemail env inp (inp.args.getD 0 "") (inp.args.getD 1 "")
      (inp.args.getD 2 "") inp.token [] claims hparse hkey hcsr hemail]
  · intro hne hmis
    rw [hred, afterToken_nonnative_email env inp (inp.args.getD 0 "") (inp.args.getD 1 "")
      (inp.args.getD 2 "") inp.token [] claims hparse hkey hcsr hne, if_pos hmis]
  · intro heq a b
    by_cases hne : claims.email = ""
    · rw [hred, afterToken_nonnative_noemail env inp (inp.args.getD 0 "") (inp.args.getD 1 "")
        (inp.args.getD 2 "") inp.token [] claims hparse hkey hcsr hne]
      intro hx
      injection hx with h2
      cases h2
    · rw [hred, afterToken_nonnative_email env inp (inp.args.getD 0 "") (inp.args.getD 1 "")
        (inp.args.getD 2 "") inp.token [] claims hparse hkey hcsr hne,
        if_neg (not_not_intro heq)]
      intro hx
      exact (tailErr_ne _ (signAndWrite_errors _ _ _ _ _ _ _ _ hx)).2.1 a b rfl

/-- Witness for claim C10: an external token with email claim
"Joe@x.com" and subject argument "joe@x.com" fails even though the two
are equal after lower-casing, showing the byte-for-byte comparison. -/
theorem claim10_witness :
    certificateAction
        (cEnvAllOk (fun t => if t = "t" then some ⟨"s", [], "", [], "Joe@x.com"⟩ else none))
        ⟨["joe@x.com", "c", "k"], "t", false, [], "", "", ""⟩
      = (.error (.emailMismatch "Joe@x.com" "joe@x.com"), [])
    ∧ toLowerStr "Joe@x.com" = toLowerStr "joe@x.com" := by
  refine ⟨?_, by decide⟩
  exact (claim10_email_check
    (cEnvAllOk (fun t => if t = "t" then some ⟨"s", [], "", [], "Joe@x.com"⟩ else none))
    ⟨["joe@x.com", "c", "k"], "t", false, [], "", "", ""⟩
    ⟨"s", [], "", [], "Joe@x.com"⟩
    rfl rfl (by decide) (by decide) rfl rfl rfl rfl).2.1 (by decide) (by decide)

/-- Claim C5: in the issue flow, a supplied token is classified as
authority-native exactly when its unverified claims carry a non-empty
`sha` or a non-empty `sans` list; a native token has the caller's subject
checked case-insensitively against the CSR common name (and never against
an email claim), while a non-native token has it checked against the CSR
email claim (and never against the common name) — the classification
alone decides which field is checked. -/
theorem claim5_token_classification (env : CertEnv) (inp : CertInput)
    (claims : TokenClaims)
    (hargs : inp.args.length = 3) (hoff : inp.offline = false) (htok : inp.token ≠ "")
    (hparse : env.parse inp.token = some claims)
    (hkey : env.keygenOk = true) (hcsr : env.csrOk = true)
    (hnoconf : ¬ (isStepCertificatesToken env.parse inp.token = true ∧ inp.sans ≠ [])) :
    (isStepCertificatesToken env.parse inp.token = true
      ↔ (claims.sha ≠ "" ∨ claims.sans ≠ []))
    ∧ ((claims.sha ≠ "" ∨ claims.sans ≠ []) →
        (((certificateAction env inp).1
            = .error (.commonNameMismatch claims.sub (inp.args.getD 0 ""))
          ↔ ¬ toLowerStr (inp.args.getD 0 "") = toLowerStr claims.sub)
        ∧ (∀ a b, (certificateAction env inp).1 ≠ .error (.emailMismatch a b))
        ∧ (certificateAction env inp).1 ≠ .error .noEmailClaim))
    ∧ (claims.sha = "" ∧ claims.sans = [] →
        ((∀ a b, (certificateAction env inp).1 ≠ .error (.commonNameMismatch a b))
        ∧ ((certificateAction env inp).1 = .error .noEmailClaim ↔ claims.email = ""))) := by
  have hiff := isStep_eq env.parse inp.token claims hparse
  refine ⟨hiff, ?_, ?_⟩
  · intro hN
    have hstep : isStepCertificatesToken env.parse inp.token = true := hiff.mpr hN
    have hred := certAction_token_branch env inp hargs hoff htok hnoconf
    rw [hstep] at hred
    rw [afterToken_ok_reduce env inp (inp.args.getD 0 "") (inp.args.getD 1 "")
      (inp.args.getD 2 "") inp.token true [] claims hparse hkey hcsr] at hred
    rw [if_pos rfl] at hred
    refine ⟨?_, ?_, ?_⟩
    · by_cases hmis : toLowerStr (inp.args.getD 0 "") = toLowerStr claims.sub
      · rw [hred, if_neg (not_not_intro hmis)]
        constructor
        · intro hx
          exact absurd rfl
            ((tailErr_ne _ (signAndWrite_errors _ _ _ _ _ _ _ _ hx)).1
              claims.sub (inp.args.getD 0 ""))
        · intro hc
          exact absurd hmis hc
      · rw [hred, if_pos hmis]
        exact ⟨fun _ => hmis, fun _ => rfl⟩
    · intro a b
      by_cases hmis : toLowerStr (inp.args.getD 0 "") = toLowerStr claims.sub
      · rw [hred, if_neg (not_not_intro hmis)]
        intro hx
        exact (tailErr_ne _ (signAndWrite_errors _ _ _ _ _ _ _ _ hx)).2.1 a b rfl
      · rw [hred, if_pos hmis]
        intro hx
        injection hx with h2
        cases h2
    · by_cases hmis : toLowerStr (inp.args.getD 0 "") = toLowerStr claims.sub
      · rw [hred, if_neg (not_not_intro hmis)]
        intro hx
        exact (tailErr_ne _ (signAndWrite_errors _ _ _ _ _ _ _ _ hx)).2.2 rfl
      · rw [hred, if_pos hmis]
        intro hx
        injection hx with h2
        cases h2
  · rintro ⟨hsha, hsans⟩
    have hstep : isStepCertificatesToken env.parse inp.token = false := by
      cases hb : isStepCertificatesToken env.parse inp.token
      · rfl
      · rcases hiff.mp hb with hc | hc
        · exact absurd hsha hc
        · exact absurd hsans hc
    have hred := certAction_token_branch env inp hargs hoff htok hnoconf
    rw [hstep] at hred
    refine ⟨?_, ?_⟩
    · intro a b
      by_cases hne : claims.email = ""
      · rw [hred, afterToken_nonnative_noemail env inp (inp.args.getD 0 "")
          (inp.args.getD 1 "") (inp.args.getD 2 "") inp.token [] claims hparse hkey hcsr hne]
        intro hx
        injection hx with h2
        cases h2
      · rw [hred, afterToken_nonnative_email env inp (inp.args.getD 0 "")
          (inp.args.getD 1 "") (inp.args.getD 2 "") inp.token [] claims hparse hkey hcsr hne]
        by_cases hmis : claims.email ≠ inp.args.getD 0 ""
        · rw [if_pos hmis]
          intro hx
          injection hx with h2
          cases h2
        · rw [if_neg hmis]
          intro hx
          exact (tailErr_ne _ (signAndWrite_errors _ _ _ _ _ _ _ _ hx)).1 a b rfl
    · constructor
      · intro hx
        by_cases hne : claims.email = ""
        · exact hne
        · exfalso
          rw [hred, afterToken_nonnative_email env inp (inp.args.getD 0 "")
            (inp.args.getD 1 "") (inp.args.getD 2 "") inp.token [] claims
            hparse hkey hcsr hne] at hx
          by_cases hmis : claims.email ≠ inp.args.getD 0 ""
          · rw [if_pos hmis] at hx
            injection hx with h2
            cases h2
          · rw [if_neg hmis] at hx
            exact (tailErr_ne _ (signAndWrite_errors _ _ _ _ _ _ _ _ hx)).2.2 rfl
      · intro hne
        rw [hred, afterToken_nonnative_noemail env inp (inp.args.getD 0 "")
          (inp.args.getD 1 "") (inp.args.getD 2 "") inp.token [] claims hparse hkey hcsr hne]

/-- Witness for claim C5: a token with a `sha` claim is authority-native
and is checked against the common name (case-insensitively: subject
"host" matches token subject "Host"); a token without `sha` and `sans`
claims is checked against the email claim instead. -/
theorem claim5_witness :
    isStepCertificatesToken
        (fun t => if t = "t" then some ⟨"Host", [], "abc", [], ""⟩ else none) "t" = true
    ∧ (certificateAction
        (cEnvAllOk (fun t => if t = "t" then some ⟨"Host", [], "abc", [], ""⟩ else none))
        ⟨["host", "c", "k"], "t", false, [], "", "", ""⟩).1 ≠ .error .noEmailClaim
    ∧ certificateAction
        (cEnvAllOk (fun t => if t = "t" then some ⟨"s", [], "", [], ""⟩ else none))
        ⟨["joe", "c", "k"], "t", false, [], "", "", ""⟩
        = (.error .noEmailClaim, []) := by
  refine ⟨?_, ?_, ?_⟩
  · exact (claim5_token_classification
      (cEnvAllOk (fun t => if t = "t" then some ⟨"Host", [], "abc", [], ""⟩ else none))
      ⟨["host", "c", "k"], "t", false, [], "", "", ""⟩ ⟨"Host", [], "abc", [], ""⟩
      rfl rfl (by decide) (by decide) rfl rfl (by decide)).1.mpr
      (Or.inl (by decide))
  · exact ((claim5_token_classification
      (cEnvAllOk (fun t => if t = "t" then some ⟨"Host", [], "abc", [], ""⟩ else none))
      ⟨["host", "c", "k"], "t", false, [], "", "", ""⟩ ⟨"Host", [], "abc", [], ""⟩
      rfl rfl (by decide) (by decide) rfl rfl (by decide)).2.1
      (Or.inl (by decide))).2.2
  · have h := ((claim5_token_classification
      (cEnvAllOk (fun t => if t = "t" then some ⟨"s", [], "", [], ""⟩ else none))
      ⟨["joe", "c", "k"], "t", false, [], "", "", ""⟩ ⟨"s", [], "", [], ""⟩
      rfl rfl (by decide) (by decide) rfl rfl (by decide)).2.2
      ⟨rfl, rfl⟩).2.mpr rfl
    exact Prod.ext h (by decide)

/-- Counterexample for claim C6 as stated: with subject
"host.example.com", no caller-supplied SANs and a token declaring no SANs
(`sans` claim empty), `CreateSignRequest` produces a CSR whose SAN lists
are empty — not a CSR with one DNS SAN "host.example.com".  (The
subject-as-default-SAN behaviour lives in token generation, which always
stamps the subject into the token's `sans` claim; `CreateSignRequest`
itself never adds it.) -/
theorem claim6_counterexample :
    certificateFlow.CreateSignRequest
        (fun t => if t = "tok" then some ⟨"host.example.com", [], "abc", [], ""⟩ else none)
        true true "tok" []
      = .ok ⟨"host.example.com", [], [], []⟩
    ∧ (certificateFlow.CreateSignRequest
        (fun t => if t = "tok" then some ⟨"host.example.com", [], "abc", [], ""⟩ else none)
        true true "tok" []).map CSR.dnsNames
      ≠ .ok ["host.example.com"] := by
  exact ⟨by decide, by decide⟩

/-- Claim C6 (amended): with subject "host.example.com" as the token's
subject claim, no caller-supplied SANs, and a token declaring exactly the
single SAN "host.example.com" (as token generation stamps in when no SANs
are requested), `CreateSignRequest` produces a CSR whose common name is
"host.example.com" and whose SANs are exactly the one DNS name
"host.example.com" with no IP SANs. -/
theorem claim6_csr_single_dns_san (parse : String → Option TokenClaims)
    (token : String) (claims : TokenClaims) (hparse : parse token = some claims)
    (hsub : claims.sub = "host.example.com")
    (hsans : claims.sans = ["host.example.com"])
    (hemail : claims.email = "") :
    certificateFlow.CreateSignRequest parse true true token []
      = .ok ⟨"host.example.com", ["host.example.com"], [], []⟩ := by
  rw [createSignRequest_ok parse true true rfl rfl token [] claims hparse]
  rw [csrOfClaims, hsub, hsans, hemail]
  decide

/-- Witness for the amended claim C6 at a concrete token. -/
theorem claim6_witness :
    certificateFlow.CreateSignRequest
        (fun t => if t = "tok" then
          some ⟨"host.example.com", [], "abc", ["host.example.com"], ""⟩ else none)
        true true "tok" []
      = .ok ⟨"host.example.com", ["host.example.com"], [], []⟩ :=
  claim6_csr_single_dns_san
    (fun t => if t = "tok" then
      some ⟨"host.example.com", [], "abc", ["host.example.com"], ""⟩ else none)
    "tok" ⟨"host.example.com", [], "abc", ["host.example.com"], ""⟩
    (by decide) rfl rfl rfl

/-! ## Write ordering in the issue flow -/

/-- The write-ordering invariant of an effect trace: a completed
certificate write implies the sign call succeeded, a key write is
immediately preceded by the certificate write, and without a certificate
write there is no key write. -/
def GoodTrace (sOk : Bool) (t : List Effect) : Prop :=
  (Effect.wroteCrt ∈ t → sOk = true)
  ∧ (Effect.wroteKey ∈ t → ∃ pre, t = pre ++ [Effect.wroteCrt, Effect.wroteKey])
  ∧ (Effect.wroteCrt ∉ t → Effect.wroteKey ∉ t)

theorem goodTrace_of_not_mem (sOk : Bool) (t : List Effect)
    (h1 : Effect.wroteCrt ∉ t) (h2 : Effect.wroteKey ∉ t) : GoodTrace sOk t :=
  ⟨fun h => absurd h h1, fun h => absurd h h2, fun _ => h2⟩

theorem sign_cases (env : CertEnv) (offline : Bool) (root caURL token : String)
    (csr : CSR) (crtFile : String) :
    (certificateFlow.Sign env offline root caURL token csr crtFile
        = (.ok (), [.builtClient, .calledSign, .wroteCrt]) ∧ env.signOk = true)
    ∨ (∃ e, certificateFlow.Sign env offline root caURL token csr crtFile = (.error e, []))
    ∨ (∃ e, certificateFlow.Sign env offline root caURL token csr crtFile
        = (.error e, [.builtClient]))
    ∨ (∃ e, certificateFlow.Sign env offline root caURL token csr crtFile
        = (.error e, [.builtClient, .calledSign])) := by
  rcases hgc : certificateFlow.getClient env.parse env.defaultRootExists offline
      root caURL csr.commonName token with e | c
  · right; left
    exact ⟨e, by simp [certificateFlow.Sign, hgc]⟩
  · by_cases hv : env.validityOk = true
    · by_cases hs : env.signOk = true
      · by_cases hz : env.serializeOk = true
        · by_cases hw : env.writeCrtOk = true
          · left
            exact ⟨by simp [certificateFlow.Sign, hgc, hv, hs, hz, hw], hs⟩
          · right; right; right
            exact ⟨.failure "write-crt", by simp [certificateFlow.Sign, hgc, hv, hs, hz, hw]⟩
        · right; right; right
          exact ⟨.failure "pem-serialize", by simp [certificateFlow.Sign, hgc, hv, hs, hz]⟩
      · right; right; right
        exact ⟨.failure "client-sign", by simp [certificateFlow.Sign, hgc, hv, hs]⟩
    · right; right; left
      exact ⟨.failure "parse-validity", by simp [certificateFlow.Sign, hgc, hv]⟩

theorem signAndWrite_goodTrace (env : CertEnv) (inp : CertInput)
    (token crtFile keyFile : String) (csr : CSR) (eff0 : List Effect)
    (h1 : Effect.wroteCrt ∉ eff0) (h2 : Effect.wroteKey ∉ eff0) :
    GoodTrace env.signOk (certActionSignAndWrite env inp token crtFile keyFile csr eff0).2 := by
  rcases sign_cases env inp.offline inp.root inp.caURL token csr crtFile with
    ⟨heq, hsOk⟩ | ⟨e, heq⟩ | ⟨e, heq⟩ | ⟨e, heq⟩
  · by_cases hw : env.writeKeyOk = true
    · have hres : certActionSignAndWrite env inp token crtFile keyFile csr eff0
          = (.ok (), eff0 ++ [.builtClient, .calledSign, .wroteCrt] ++ [.wroteKey]) := by
        simp [certActionSignAndWrite, heq, hw]
      rw [hres]
      refine ⟨fun _ => hsOk, fun _ => ⟨eff0 ++ [.builtClient, .calledSign], by simp⟩,
        fun hnc => absurd (by simp) hnc⟩
    · have hres : certActionSignAndWrite env inp token crtFile keyFile csr eff0
          = (.error (.failure "serialize-key"),
              eff0 ++ [.builtClient, .calledSign, .wroteCrt]) := by
        simp [certActionSignAndWrite, heq, hw]
      rw [hres]
      refine ⟨fun _ => hsOk, fun hk => ?_, fun hnc => absurd (by simp) hnc⟩
      exfalso
      rcases List.mem_append.mp hk with h | h
      · exact h2 h
      · simp at h
  · have hres : certActionSignAndWrite env inp token crtFile keyFile csr eff0
        = (.error e, eff0 ++ []) := by
      simp [certActionSignAndWrite, heq]
    rw [hres]
    refine goodTrace_of_not_mem _ _ ?_ ?_ <;> intro hmem <;>
      rcases List.mem_append.mp hmem with h | h
    · exact h1 h
    · simp at h
    · exact h2 h
    · simp at h
  · have hres : certActionSignAndWrite env inp token crtFile keyFile csr eff0
        = (.error e, eff0 ++ [.builtClient]) := by
      simp [certActionSignAndWrite, heq]
    rw [hres]
    refine goodTrace_of_not_mem _ _ ?_ ?_ <;> intro hmem <;>
      rcases List.mem_append.mp hmem with h | h
    · exact h1 h
    · simp at h
    · exact h2 h
    · simp at h
  · have hres : certActionSignAndWrite env inp token crtFile keyFile csr eff0
        = (.error e, eff0 ++ [.builtClient, .calledSign]) := by
      simp [certActionSignAndWrite, heq]
    rw [hres]
    refine goodTrace_of_not_mem _ _ ?_ ?_ <;> intro hmem <;>
      rcases List.mem_append.mp hmem with h | h
    · exact h1 h
    · simp at h
    · exact h2 h
    · simp at h

theorem afterToken_goodTrace (env : CertEnv) (inp : CertInput)
    (subject crtFile keyFile token : String) (isStep : Bool) (eff0 : List Effect)
    (h1 : Effect.wroteCrt ∉ eff0) (h2 : Effect.wroteKey ∉ eff0) :
    GoodTrace env.signOk
      (certActionAfterToken env inp subject crtFile keyFile token isStep eff0).2 := by
  unfold certActionAfterToken
  split
  · exact goodTrace_of_not_mem _ _ h1 h2
  · split
    · split
      · exact goodTrace_of_not_mem _ _ h1 h2
      · exact signAndWrite_goodTrace env inp token crtFile keyFile _ eff0 h1 h2
    · split
      · exact goodTrace_of_not_mem _ _ h1 h2
      · split
        · exact goodTrace_of_not_mem _ _ h1 h2
        · exact signAndWrite_goodTrace env inp token crtFile keyFile _ eff0 h1 h2

theorem certAction_goodTrace (env : CertEnv) (inp : CertInput) :
    GoodTrace env.signOk (certificateAction env inp).2 := by
  unfold certificateAction
  split
  · exact goodTrace_of_not_mem _ _ (by simp) (by simp)
  · split
    · exact goodTrace_of_not_mem _ _ (by simp) (by simp)
    · split
      · exact goodTrace_of_not_mem _ _ (by simp) (by simp)
      · split
        · exact goodTrace_of_not_mem _ _ (by simp) (by simp)
        · split
          · split
            · exact goodTrace_of_not_mem _ _ (by simp) (by simp)
            · exact afterToken_goodTrace env inp _ _ _ _ _ [.generatedToken]
                (by simp) (by simp)
          · split
            · exact goodTrace_of_not_mem _ _ (by simp) (by simp)
            · exact afterToken_goodTrace env inp _ _ _ _ _ [] (by simp) (by simp)

/-- Claim C8: in the issue flow, the certificate file is written only if
the client's Sign call fully succeeded; the private-key file is written
only immediately after a completed certificate write; and any failure
before or during the certificate write leaves the private key
unwritten. -/
theorem claim8_write_ordering (env : CertEnv) (inp : CertInput) :
    (Effect.wroteCrt ∈ (certificateAction env inp).2 → env.signOk = true)
    ∧ (Effect.wroteKey ∈ (certificateAction env inp).2 →
        ∃ pre, (certificateAction env inp).2 = pre ++ [Effect.wroteCrt, Effect.wroteKey])
    ∧ (Effect.wroteCrt ∉ (certificateAction env inp).2 →
        Effect.wroteKey ∉ (certificateAction env inp).2) :=
  certAction_goodTrace env inp

/-- Witness for claim C8 on a fully successful issue invocation: the trace
builds the client, calls sign, writes the certificate, then the key. -/
theorem claim8_witness :
    (certificateAction
        (cEnvAllOk (fun t => if t = "t" then
          some ⟨"host", ["https://ca/sign"], "abc", [], ""⟩ else none))
        ⟨["host", "c", "k"], "t", false, [], "", "", ""⟩).2
      = [.builtClient, .calledSign, .wroteCrt, .wroteKey]
    ∧ ∃ pre, (certificateAction
        (cEnvAllOk (fun t => if t = "t" then
          some ⟨"host", ["https://ca/sign"], "abc", [], ""⟩ else none))
        ⟨["host", "c", "k"], "t", false, [], "", "", ""⟩).2
      = pre ++ [Effect.wroteCrt, Effect.wroteKey] := by
  refine ⟨by decide, ?_⟩
  exact (claim8_write_ordering
    (cEnvAllOk (fun t => if t = "t" then
      some ⟨"host", ["https://ca/sign"], "abc", [], ""⟩ else none))
    ⟨["host", "c", "k"], "t", false, [], "", "", ""⟩).2.1 (by decide)
